import Mathlib

/-!
Shallow embedding of `parse_bodymap.py`: a one-shot pipeline that loads a
JSON log of body-contact touch events, flattens it into point records,
bins the normalized coordinates into 2D histograms per category, renders
heatmap panels, and prints summary statistics.

Numbers that the script handles as floats (normalized coordinates,
confidence) are modelled as rationals.  The filesystem is modelled as a
function from path to existence (for the optional background images) or
to file content (for the loader).
-/

namespace BodyMap

/-- One point record, as produced by the flatten loop of
`parse_bodymap.py` (lines 22-28) and tabulated by `pd.DataFrame(points)`.
Fields follow the JSON point objects. -/
structure Point where
  participantId : String
  figure : String
  contactType : String
  direction : String
  xNorm : ℚ
  yNorm : ℚ
  confidence : ℚ
deriving DecidableEq, Repr

/-- One element of the top-level `data` array: either null (skipped) or a
map from timestamp keys to point objects, in source iteration order. -/
abbrev ParticipantEntry := Option (List (String × Point))

/-- The value of the top-level `data` key of the input JSON. -/
abbrev InputData := List ParticipantEntry

/-- Points contributed by one participant entry: none for a null entry,
otherwise every point of the timestamp map, discarding the timestamp key
(the inner loop `for timestamp, point in participant_data.items()`). -/
def entryPoints : ParticipantEntry → List Point
  | none => []
  | some m => m.map Prod.snd

/-- The flatten loop (lines 22-28): null participants are skipped via
`continue`; each (timestamp, point) pair of a present participant appends
exactly one record, in encounter order. -/
def flattenData (data : InputData) : List Point :=
  (data.map entryPoints).flatten

/-- Helper for first-occurrence deduplication, tracking values seen so
far. -/
def uniqueAux (seen : List String) : List String → List String
  | [] => []
  | x :: xs => if x ∈ seen then uniqueAux seen xs else x :: uniqueAux (x :: seen) xs

/-- First-occurrence-order distinct values of a column, the semantics of
`pandas.Series.unique` used at lines 35-38, 41, 111 and 164. -/
def uniqueList (l : List String) : List String :=
  uniqueAux [] l

/-- Background of one rendered panel: a loaded image file or the
`lightgray` fallback. -/
inductive Background
  | image (path : String)
  | gray
deriving DecidableEq, Repr

/-- Abstraction of one rendered axes panel: the category value it was
drawn for, the number of points of its row subset (shown in the title),
and the background that was composited. -/
structure Panel where
  category : String
  count : Nat
  background : Background
deriving DecidableEq, Repr

/-- The per-panel background choice (lines 52-61 and analogues): probe
the working directory for `<figure>.png`; on success show the image,
otherwise fall back to a lightgray facecolor. -/
def bgFor (fs : String → Bool) (g : String) : Background :=
  if fs (g ++ ".png") then Background.image (g ++ ".png") else Background.gray

/-- A working directory holding no background images at all. -/
def noImages : String → Bool := fun _ => false

/-- Result of an `Except` computation, as a Bool. -/
def isOk {α : Type} : Except String α → Bool
  | Except.ok _ => true
  | Except.error _ => false

/-- The by-figure breakdown (lines 40-105): `df[figure].unique()` fails
with a KeyError on an empty frame (no columns); otherwise
`plt.subplots(1, num_figures)` gives one axes per distinct figure value,
and panel idx shows figure number idx with its own `<figure>.png`
background probe. -/
def figureBreakdown (fs : String → Bool) (rows : List Point) : Except String (List Panel) :=
  if rows.isEmpty then Except.error "KeyError: figure" else
  Except.ok ((uniqueList (rows.map (fun p => p.figure))).map (fun g =>
    { category := g,
      count := (rows.filter (fun p => p.figure == g)).length,
      background := bgFor fs g }))

/-- The by-contact-type panel loop (lines 112-155).  `plt.subplots(1, 2)`
allocates exactly two axes, so `axes[idx]` raises an IndexError once idx
reaches 2; `contact_data.iloc[0]` raises an IndexError on an empty
subset; the background probe uses the figure field of the first row of
the subset. -/
def contactPanelsAux (fs : String → Bool) (rows : List Point) :
    Nat → List String → Except String (List Panel)
  | _idx, [] => Except.ok []
  | idx, c :: rest =>
    if 2 ≤ idx then Except.error "IndexError: axes index out of bounds" else
    match rows.filter (fun p => p.contactType == c) with
    | [] => Except.error "IndexError: single positional indexer is out-of-bounds"
    | p0 :: tl =>
      match contactPanelsAux fs rows (idx + 1) rest with
      | Except.error e => Except.error e
      | Except.ok ps =>
        let panel : Panel :=
          { category := c, count := (p0 :: tl).length, background := bgFor fs p0.figure }
        Except.ok (panel :: ps)

/-- The by-contact-type breakdown (lines 108-159): unique contact types
of the table (KeyError on an empty frame), then the two-axes panel
loop. -/
def contactBreakdown (fs : String → Bool) (rows : List Point) : Except String (List Panel) :=
  if rows.isEmpty then Except.error "KeyError: contactType" else
  contactPanelsAux fs rows 0 (uniqueList (rows.map (fun p => p.contactType)))

/-- The fixed direction-label dictionary (lines 165-168). -/
def directionLabels (d : String) : Option String :=
  if d = "touched_by" then some "I was touched"
  else if d = "touched" then some "I touched"
  else none

/-- The by-direction panel loop (lines 170-213).  Like the contact-type
loop it has exactly two axes; inside one iteration the axes access and
background probe (lines 174-180) precede the title lookup
`direction_labels[direction]` (line 209), which raises a KeyError for an
unrecognized direction value. -/
def directionPanelsAux (fs : String → Bool) (rows : List Point) :
    Nat → List String → Except String (List Panel)
  | _idx, [] => Except.ok []
  | idx, d :: rest =>
    if 2 ≤ idx then Except.error "IndexError: axes index out of bounds" else
    match rows.filter (fun p => p.direction == d) with
    | [] => Except.error "IndexError: single positional indexer is out-of-bounds"
    | p0 :: tl =>
      match directionLabels d with
      | none => Except.error ("KeyError: " ++ d)
      | some _lbl =>
        match directionPanelsAux fs rows (idx + 1) rest with
        | Except.error e => Except.error e
        | Except.ok ps =>
          let panel : Panel :=
            { category := d, count := (p0 :: tl).length, background := bgFor fs p0.figure }
          Except.ok (panel :: ps)

/-- The by-direction breakdown (lines 161-217). -/
def directionBreakdown (fs : String → Bool) (rows : List Point) : Except String (List Panel) :=
  if rows.isEmpty then Except.error "KeyError: direction" else
  directionPanelsAux fs rows 0 (uniqueList (rows.map (fun p => p.direction)))

/-- The per-direction statistics loop of the Reporter (lines 224-227):
for each unique direction, look up its label (KeyError on an
unrecognized value) and count the matching rows. -/
def directionStatsAux (rows : List Point) : List String → Except String (List (String × Nat))
  | [] => Except.ok []
  | d :: rest =>
    match directionLabels d with
    | none => Except.error ("KeyError: " ++ d)
    | some lbl =>
      match directionStatsAux rows rest with
      | Except.error e => Except.error e
      | Except.ok xs => Except.ok ((lbl, (rows.filter (fun p => p.direction == d)).length) :: xs)

/-- The Reporter direction summary over the unique directions of the
table. -/
def directionStats (rows : List Point) : Except String (List (String × Nat)) :=
  directionStatsAux rows (uniqueList (rows.map (fun p => p.direction)))

/-- Round-half-to-even to an integer, the tie-breaking rule of
`numpy.round` underlying `Series.round`. -/
def roundHalfEven (q : ℚ) : ℤ :=
  if q - ⌊q⌋ < 1 / 2 then ⌊q⌋
  else if 1 / 2 < q - ⌊q⌋ then ⌊q⌋ + 1
  else if 2 ∣ ⌊q⌋ then ⌊q⌋ else ⌊q⌋ + 1

/-- Round to 2 decimal places, the `.round(2)` of line 230. -/
def roundTo2 (q : ℚ) : ℚ :=
  (roundHalfEven (q * 100) : ℚ) / 100

/-- The Reporter mean-confidence summary (line 230):
`df.groupby(contactType)[confidence].mean().round(2)` as an association
list from contact type to rounded group mean. -/
def meanConfidenceByContactType (rows : List Point) : List (String × ℚ) :=
  (uniqueList (rows.map (fun p => p.contactType))).map (fun c =>
    (c, roundTo2 (((rows.filter (fun p => p.contactType == c)).map (fun p => p.confidence)).sum /
      ((rows.filter (fun p => p.contactType == c)).length : ℚ))))

/-- Bin index of one coordinate for `np.histogram2d(..., bins=N,
range=[[0,1],[0,1]])`: a value outside the closed range [0,1] is dropped
from the sample; inside, the bins are the half-open intervals
[i/N, (i+1)/N) except that the last bin also contains the right edge. -/
def binIndex (N : Nat) (x : ℚ) : Option Nat :=
  if x < 0 ∨ 1 < x then none
  else some (min (Int.toNat ⌊x * (N : ℚ)⌋) (N - 1))

/-- The (x, y) bin of one row; the sample is dropped when either
coordinate is out of range. -/
def binOf (N : Nat) (p : Point) : Option (Nat × Nat) :=
  match binIndex N p.xNorm, binIndex N p.yNorm with
  | some i, some j => some (i, j)
  | _, _ => none

/-- The count of one cell of the `np.histogram2d` grid over the given
rows. -/
def histogram2d (rows : List Point) (N : Nat) (i j : Nat) : Nat :=
  (rows.filterMap (binOf N)).count (i, j)

/-- Whether both coordinates of a row lie in the closed histogram range
[0,1] x [0,1]. -/
def inRange (p : Point) : Bool :=
  (decide (0 ≤ p.xNorm) && decide (p.xNorm ≤ 1)) &&
  (decide (0 ≤ p.yNorm) && decide (p.yNorm ≤ 1))

/-- The full N x N histogram grid as a list of rows of counts. -/
def histGrid (rows : List Point) (N : Nat) : List (List Nat) :=
  (List.range N).map (fun i => (List.range N).map (fun j => histogram2d rows N i j))

/-- Content found at the input path: a well-formed JSON document with its
`data` array, or malformed text on which `json.load` raises. -/
inductive FileContent
  | valid (d : InputData)
  | malformed
deriving Repr

/-- Outcome of the load stage (lines 12-19). -/
inductive LoadOutcome
  | usageExit1
  | fileNotFound (path : String)
  | jsonDecodeError (path : String)
  | loaded (d : InputData)
deriving Repr

/-- The load stage: `len(sys.argv) < 2` prints usage and exits with code
1 before any file access; otherwise `open` raises FileNotFoundError on a
missing path and `json.load` raises JSONDecodeError on malformed
content, both unhandled. -/
def loadStage (argv : List String) (fs : String → Option FileContent) : LoadOutcome :=
  match argv with
  | _prog :: path :: _ =>
    match fs path with
    | none => LoadOutcome.fileNotFound path
    | some FileContent.malformed => LoadOutcome.jsonDecodeError path
    | some (FileContent.valid d) => LoadOutcome.loaded d
  | _ => LoadOutcome.usageExit1

/-- Final state of one run after the load stage: the output image files
written so far, and the unhandled error that aborted the run, if any. -/
structure RunResult where
  written : List String
  error : Option String
deriving DecidableEq, Repr

/-- The pipeline after a successful load (lines 21-232), stage by stage:
flatten, data summary (where `df[participantId]` raises a KeyError on an
empty frame, before any figure is drawn), the three breakdowns each
followed by its `savefig`, then the statistics (whose direction loop
repeats the label lookup). -/
def runProgram (fs : String → Bool) (data : InputData) : RunResult :=
  let rows := flattenData data
  if rows.isEmpty then { written := [], error := some "KeyError: participantId" }
  else
    match figureBreakdown fs rows with
    | Except.error e => { written := [], error := some e }
    | Except.ok _ =>
      match contactBreakdown fs rows with
      | Except.error e => { written := ["heatmaps_on_figures.png"], error := some e }
      | Except.ok _ =>
        match directionBreakdown fs rows with
        | Except.error e =>
            { written := ["heatmaps_on_figures.png", "heatmaps_by_contacttype.png"],
              error := some e }
        | Except.ok _ =>
          match directionStats rows with
          | Except.error e =>
              { written := ["heatmaps_on_figures.png", "heatmaps_by_contacttype.png",
                            "heatmaps_by_direction.png"],
                error := some e }
          | Except.ok _ =>
              { written := ["heatmaps_on_figures.png", "heatmaps_by_contacttype.png",
                            "heatmaps_by_direction.png"],
                error := none }

/-- The point of the end-to-end scenario of the spec, with 0.5 and 0.9
written as explicit rationals. -/
def samplePoint : Point :=
  { participantId := "p1", figure := "arm", contactType := "pat", direction := "touched",
    xNorm := mkRat 1 2, yNorm := mkRat 1 2, confidence := mkRat 9 10 }

/-- The input of the end-to-end scenario: one participant with a single
timestamped point, followed by a null participant. -/
def sampleData : InputData :=
  [some [("t0", samplePoint)], none]

/-- Three rows with three distinct contact types (and a single labeled
direction), exercising the two-axes limit of the contact-type loop. -/
def rowsThreeCT : List Point :=
  [{ participantId := "p1", figure := "arm", contactType := "pat", direction := "touched",
     xNorm := 0, yNorm := 0, confidence := 1 },
   { participantId := "p1", figure := "arm", contactType := "stroke", direction := "touched",
     xNorm := 0, yNorm := 0, confidence := 1 },
   { participantId := "p1", figure := "arm", contactType := "poke", direction := "touched",
     xNorm := 0, yNorm := 0, confidence := 1 }]

/-- Two rows with two contact types, two labeled directions and two
figure values. -/
def rowsTwo : List Point :=
  [{ participantId := "p1", figure := "arm", contactType := "pat", direction := "touched",
     xNorm := 0, yNorm := 0, confidence := 1 },
   { participantId := "p2", figure := "leg", contactType := "stroke", direction := "touched_by",
     xNorm := 0, yNorm := 0, confidence := 0 }]

/-- One row whose direction value is outside the label dictionary. -/
def rowsBadDirection : List Point :=
  [{ participantId := "p1", figure := "arm", contactType := "pat", direction := "self",
     xNorm := 0, yNorm := 0, confidence := 1 }]

/-- Membership in the deduplication helper: an element appears in the
result exactly when it appears in the input and was not already seen. -/
theorem mem_uniqueAux (x : String) (l : List String) :
    ∀ seen, x ∈ uniqueAux seen l ↔ (x ∈ l ∧ x ∉ seen) := by
  induction l with
  | nil => intro seen; simp [uniqueAux]
  | cons y ys ih =>
    intro seen
    by_cases hy : y ∈ seen
    · rw [uniqueAux, if_pos hy, ih seen]
      constructor
      · rintro ⟨h1, h2⟩
        exact ⟨List.mem_cons_of_mem _ h1, h2⟩
      · rintro ⟨h1, h2⟩
        rcases List.mem_cons.mp h1 with h | h
        · exact absurd (h ▸ hy) h2
        · exact ⟨h, h2⟩
    · rw [uniqueAux, if_neg hy]
      simp only [List.mem_cons, ih (y :: seen)]
      constructor
      · rintro (h | ⟨h1, h2⟩)
        · exact ⟨Or.inl h, h ▸ hy⟩
        · exact ⟨Or.inr h1, fun hc => h2 (Or.inr hc)⟩
      · rintro ⟨h1 | h1, h2⟩
        · exact Or.inl h1
        · by_cases hxy : x = y
          · exact Or.inl hxy
          · exact Or.inr ⟨h1, fun hc => hc.elim hxy h2⟩

/-- Membership in the first-occurrence unique list coincides with
membership in the column. -/
theorem mem_uniqueList (x : String) (l : List String) :
    x ∈ uniqueList l ↔ x ∈ l := by
  rw [uniqueList, mem_uniqueAux]
  simp

/-- Flattening an all-null data array yields no records. -/
theorem flattenData_all_none (data : InputData) (h : ∀ e ∈ data, e = none) :
    flattenData data = [] := by
  induction data with
  | nil => rfl
  | cons e es ih =>
    have he : e = none := h e (List.mem_cons_self _ _)
    subst he
    have : flattenData es = [] := ih (fun x hx => h x (List.mem_cons_of_mem _ hx))
    simpa [flattenData, entryPoints] using this

/-- The Reporter direction loop fails whenever the processed list of
directions contains an unlabeled value. -/
theorem directionStatsAux_notOk (rows : List Point) (d : String)
    (hd : directionLabels d = none) :
    ∀ cats, d ∈ cats → isOk (directionStatsAux rows cats) = false := by
  intro cats
  induction cats with
  | nil => intro h; cases h
  | cons c rest ih =>
    intro hmem
    cases hlc : directionLabels c with
    | none => simp [directionStatsAux, hlc, isOk]
    | some lbl =>
      have hdc : d ≠ c := fun h => by rw [h, hlc] at hd; cases hd
      have hrest : d ∈ rest := (List.mem_cons.mp hmem).resolve_left hdc
      have h2 := ih hrest
      cases hrec : directionStatsAux rows rest with
      | error e => simp [directionStatsAux, hlc, hrec, isOk]
      | ok xs => rw [hrec] at h2; simp [isOk] at h2

/-- A coordinate has a bin exactly when it lies in the closed range
[0,1]. -/
theorem binIndex_isSome (N : Nat) (x : ℚ) :
    (binIndex N x).isSome = (decide (0 ≤ x) && decide (x ≤ 1)) := by
  rw [binIndex]
  by_cases h : x < 0 ∨ 1 < x
  · rw [if_pos h]
    rcases h with h | h
    · simp [not_le.mpr h]
    · simp [not_le.mpr h]
  · rw [if_neg h]
    push_neg at h
    simp [h.1, h.2]

/-- A row is binned exactly when both coordinates are in range. -/
theorem binOf_isSome (N : Nat) (p : Point) : (binOf N p).isSome = inRange p := by
  have hx := binIndex_isSome N p.xNorm
  have hy := binIndex_isSome N p.yNorm
  rw [binOf, inRange]
  cases hbx : binIndex N p.xNorm with
  | none =>
    rw [hbx] at hx; simp only [Option.isSome_none] at hx
    simp [← hx]
  | some i =>
    rw [hbx] at hx; simp only [Option.isSome_some] at hx
    cases hby : binIndex N p.yNorm with
    | none =>
      rw [hby] at hy; simp only [Option.isSome_none] at hy
      simp [← hx, ← hy]
    | some j =>
      rw [hby] at hy; simp only [Option.isSome_some] at hy
      simp [← hx, ← hy]

/-- For a positive bin count, every produced bin index is below the bin
count. -/
theorem binIndex_lt (N : Nat) (hN : 0 < N) (x : ℚ) (i : Nat)
    (h : binIndex N x = some i) : i < N := by
  rw [binIndex] at h
  split at h
  · cases h
  · injection h with h1
    rw [← h1]
    exact lt_of_le_of_lt (min_le_right _ _) (Nat.sub_lt hN Nat.one_pos)

/-- For a positive bin count, every binned row lands inside the N x N
grid. -/
theorem binOf_lt (N : Nat) (hN : 0 < N) (p : Point) (i j : Nat)
    (h : binOf N p = some (i, j)) : i < N ∧ j < N := by
  rw [binOf] at h
  cases hbx : binIndex N p.xNorm with
  | none => rw [hbx] at h; cases h
  | some a =>
    cases hby : binIndex N p.yNorm with
    | none => rw [hbx, hby] at h; cases h
    | some b =>
      rw [hbx, hby] at h
      injection h with h1
      have ha : a = i := congrArg Prod.fst h1
      have hb : b = j := congrArg Prod.snd h1
      exact ⟨ha ▸ binIndex_lt N hN _ a hbx, hb ▸ binIndex_lt N hN _ b hby⟩

/-- The number of binned rows equals the number of rows in range. -/
theorem length_filterMap_binOf (N : Nat) (rows : List Point) :
    (rows.filterMap (binOf N)).length = (rows.filter inRange).length := by
  induction rows with
  | nil => rfl
  | cons p ps ih =>
    have h := binOf_isSome N p
    cases hb : binOf N p with
    | none =>
      rw [hb] at h; simp only [Option.isSome_none] at h
      simp [List.filterMap_cons, List.filter_cons, hb, ← h, ih]
    | some q =>
      rw [hb] at h; simp only [Option.isSome_some] at h
      simp [List.filterMap_cons, List.filter_cons, hb, ← h, ih]

/-- Summing the multiplicities of every cell of the N x N grid counts
every element of a list of in-grid cells once. -/
theorem sum_count_pairs (N : Nat) (l : List (Nat × Nat))
    (h : ∀ q ∈ l, q.1 < N ∧ q.2 < N) :
    (∑ i ∈ Finset.range N, ∑ j ∈ Finset.range N, l.count (i, j)) = l.length := by
  induction l with
  | nil => simp
  | cons a l ih =>
    obtain ⟨a1, a2⟩ := a
    have ha := h (a1, a2) (List.mem_cons_self _ _)
    have hrest : ∀ q ∈ l, q.1 < N ∧ q.2 < N := fun q hq => h q (List.mem_cons_of_mem _ hq)
    have inner : ∀ i, (∑ j ∈ Finset.range N, if (a1, a2) = (i, j) then 1 else 0) =
        if a1 = i then 1 else 0 := by
      intro i
      by_cases hi : a1 = i
      · subst hi
        simp [Prod.mk.injEq, Finset.sum_ite_eq, Finset.mem_range, ha.2]
      · simp [Prod.mk.injEq, hi]
    simp only [List.count_cons, beq_iff_eq, Finset.sum_add_distrib, List.length_cons]
    rw [ih hrest]
    congr 1
    rw [Finset.sum_congr rfl (fun i _ => inner i)]
    simp [Finset.sum_ite_eq, Finset.mem_range, ha.1]

/-- C1: the Flattener skips null entries and emits one record per
(timestamp, point) pair of every non-null entry, so its record count is
the sum over non-null participants of the sizes of their timestamp
maps. -/
theorem c1_flattener_count (data : InputData) :
    flattenData (none :: data) = flattenData data ∧
    (flattenData data).length =
      (data.map (fun e => match e with | none => 0 | some m => m.length)).sum := by
  constructor
  · simp [flattenData, entryPoints]
  · rw [flattenData, List.length_flatten, List.map_map]
    refine congrArg List.sum (List.map_congr_left ?_)
    intro e _he
    cases e <;> simp [entryPoints]

/-- C4: the direction-label dictionary succeeds for exactly the values
touched and touched_by, with the stated labels, and the Reporter
direction summary fails with a lookup error whenever the table contains
any other direction value. -/
theorem c4_direction_labels :
    (∀ d, (directionLabels d).isSome ↔ (d = "touched" ∨ d = "touched_by")) ∧
    directionLabels "touched" = some "I touched" ∧
    directionLabels "touched_by" = some "I was touched" ∧
    (∀ (rows : List Point) (d : String), d ∈ rows.map (fun p => p.direction) →
      directionLabels d = none → isOk (directionStats rows) = false) := by
  refine ⟨?_, rfl, rfl, ?_⟩
  · intro d
    rw [directionLabels]
    by_cases h1 : d = "touched_by"
    · simp [h1]
    · by_cases h2 : d = "touched" <;> simp [h1, h2]
  · intro rows d hmem hd
    exact directionStatsAux_notOk rows d hd _ ((mem_uniqueList _ _).mpr hmem)

/-- Witness for C4: a table with the direction value self makes the
Reporter direction summary fail. -/
theorem c4_direction_labels_witness :
    ("self" ∈ rowsBadDirection.map (fun p => p.direction) ∧
      directionLabels "self" = none) ∧
    isOk (directionStats rowsBadDirection) = false :=
  ⟨⟨by simp [rowsBadDirection], rfl⟩,
   c4_direction_labels.2.2.2 rowsBadDirection "self" (by simp [rowsBadDirection]) rfl⟩

/-- C8: with no file-path argument the program prints usage and exits
with code 1 without touching the filesystem (the outcome is the same for
every filesystem); with an argument, a missing file surfaces as an
unhandled FileNotFoundError and malformed content as an unhandled
JSONDecodeError. -/
theorem c8_cli_behavior :
    (∀ (argv : List String) (fs fs2 : String → Option FileContent), argv.length < 2 →
      loadStage argv fs = LoadOutcome.usageExit1 ∧ loadStage argv fs = loadStage argv fs2) ∧
    (∀ (prog path : String) (rest : List String) (fs : String → Option FileContent),
      fs path = none → loadStage (prog :: path :: rest) fs = LoadOutcome.fileNotFound path) ∧
    (∀ (prog path : String) (rest : List String) (fs : String → Option FileContent),
      fs path = some FileContent.malformed →
      loadStage (prog :: path :: rest) fs = LoadOutcome.jsonDecodeError path) := by
  refine ⟨?_, ?_, ?_⟩
  · intro argv fs fs2 h
    match argv with
    | [] => exact ⟨rfl, rfl⟩
    | [_p] => exact ⟨rfl, rfl⟩
    | _p :: _q :: _r => simp [List.length_cons] at h; omega
  · intro prog path rest fs h
    simp [loadStage, h]
  · intro prog path rest fs h
    simp [loadStage, h]

/-- Witness for C8: concrete runs of the load stage for each of the
three error shapes. -/
theorem c8_cli_behavior_witness :
    loadStage ["prog"] (fun _ => some (FileContent.valid [])) = LoadOutcome.usageExit1 ∧
    loadStage ["prog", "a.json"] (fun _ => none) = LoadOutcome.fileNotFound "a.json" ∧
    loadStage ["prog", "a.json"] (fun _ => some FileContent.malformed) =
      LoadOutcome.jsonDecodeError "a.json" :=
  ⟨(c8_cli_behavior.1 ["prog"] (fun _ => some (FileContent.valid [])) (fun _ => none)
      (by decide)).1,
   c8_cli_behavior.2.1 "prog" "a.json" [] (fun _ => none) rfl,
   c8_cli_behavior.2.2 "prog" "a.json" [] (fun _ => some FileContent.malformed) rfl⟩

/-- C9: when every participant entry is null, or the data array is
empty, the run aborts with the KeyError raised by the participantId
column access of the empty table, before any output image is written. -/
theorem c9_all_null_aborts (fs : String → Bool) (data : InputData)
    (h : ∀ e ∈ data, e = none) :
    runProgram fs data = { written := [], error := some "KeyError: participantId" } := by
  have hflat : flattenData data = [] := flattenData_all_none data h
  simp [runProgram, hflat]

/-- Witness for C9: a concrete two-entry all-null input aborts with no
file written. -/
theorem c9_all_null_aborts_witness :
    runProgram noImages [none, none] =
      { written := [], error := some "KeyError: participantId" } :=
  c9_all_null_aborts noImages [none, none] (by simp)

/-- C2: the Aggregator is a pure function of the row subset and bin
count, and for a positive bin count the total of all bin counts equals
the number of rows with both coordinates in the closed range
[0,1] x [0,1]. -/
theorem c2_histogram_deterministic_sum (rows : List Point) (N : Nat) (hN : 0 < N) :
    histGrid rows N = histGrid rows N ∧
    (∑ i ∈ Finset.range N, ∑ j ∈ Finset.range N, histogram2d rows N i j) =
      (rows.filter inRange).length := by
  refine ⟨rfl, ?_⟩
  have hmem : ∀ q ∈ rows.filterMap (binOf N), q.1 < N ∧ q.2 < N := by
    intro q hq
    rcases List.mem_filterMap.mp hq with ⟨p, _hp, hbin⟩
    obtain ⟨i, j⟩ := q
    exact binOf_lt N hN p i j hbin
  calc (∑ i ∈ Finset.range N, ∑ j ∈ Finset.range N, histogram2d rows N i j)
      = (rows.filterMap (binOf N)).length := sum_count_pairs N _ hmem
    _ = (rows.filter inRange).length := length_filterMap_binOf N rows

/-- Witness for C2: the histogram of a concrete two-row table at the
bin count 15 used by the per-figure panels. -/
theorem c2_histogram_deterministic_sum_witness :
    0 < 15 ∧
    (histGrid rowsTwo 15 = histGrid rowsTwo 15 ∧
     (∑ i ∈ Finset.range 15, ∑ j ∈ Finset.range 15, histogram2d rowsTwo 15 i j) =
       (rowsTwo.filter inRange).length) :=
  ⟨by decide, c2_histogram_deterministic_sum rowsTwo 15 (by decide)⟩

/-- Looking up a key in an association list built by pairing each key of
a list with a function of it returns that function value, for any key of
the list. -/
theorem lookup_map_self {α : Type} (f : String → α) (c : String) :
    ∀ l : List String, c ∈ l → (l.map (fun x => (x, f x))).lookup c = some (f c) := by
  intro l
  induction l with
  | nil => intro h; cases h
  | cons x xs ih =>
    intro h
    by_cases hx : c = x
    · subst hx; simp [List.lookup]
    · rcases List.mem_cons.mp h with h1 | h1
      · exact absurd h1 hx
      · have hbe : (c == x) = false := beq_eq_false_iff_ne.mpr hx
        simp only [List.map_cons, List.lookup, hbe]
        exact ih h1

/-- C6: the reported mean confidence for every contact type present in
the table is the arithmetic mean of the confidence field over the rows
sharing that contact type, rounded to 2 decimal places. -/
theorem c6_mean_confidence (rows : List Point) (c : String)
    (h : c ∈ rows.map (fun p => p.contactType)) :
    (meanConfidenceByContactType rows).lookup c =
      some (roundTo2
        (((rows.filter (fun p => p.contactType == c)).map (fun p => p.confidence)).sum /
          ((rows.filter (fun p => p.contactType == c)).length : ℚ))) := by
  have hc : c ∈ uniqueList (rows.map (fun p => p.contactType)) := (mem_uniqueList _ _).mpr h
  exact lookup_map_self
    (fun c => roundTo2
      (((rows.filter (fun p => p.contactType == c)).map (fun p => p.confidence)).sum /
        ((rows.filter (fun p => p.contactType == c)).length : ℚ)))
    c _ hc

/-- Witness for C6: the reported mean confidence of the contact type pat
in a concrete two-row table. -/
theorem c6_mean_confidence_witness :
    "pat" ∈ rowsTwo.map (fun p => p.contactType) ∧
    (meanConfidenceByContactType rowsTwo).lookup "pat" =
      some (roundTo2
        (((rowsTwo.filter (fun p => p.contactType == "pat")).map (fun p => p.confidence)).sum /
          ((rowsTwo.filter (fun p => p.contactType == "pat")).length : ℚ))) :=
  ⟨by simp [rowsTwo], c6_mean_confidence rowsTwo "pat" (by simp [rowsTwo])⟩

/-- C5: on the scenario input with one timestamped point for p1 and a
null second participant, the Flattener yields exactly one record, the
figure unique values are exactly arm, and the 1-bin histogram grid is
the 1 x 1 grid holding 1. -/
theorem c5_end_to_end :
    flattenData sampleData = [samplePoint] ∧
    uniqueList ((flattenData sampleData).map (fun p => p.figure)) = ["arm"] ∧
    histGrid (flattenData sampleData) 1 = [[1]] := by
  have hflat : flattenData sampleData = [samplePoint] := rfl
  refine ⟨hflat, by rw [hflat]; rfl, ?_⟩
  rw [hflat]
  have hb : binIndex 1 (mkRat 1 2) = some 0 := by
    rw [binIndex, if_neg (by decide)]
    rw [Nat.cast_one, mul_one]
    decide
  have hbo : binOf 1 samplePoint = some (0, 0) := by
    rw [binOf]
    rw [show samplePoint.xNorm = mkRat 1 2 from rfl, show samplePoint.yNorm = mkRat 1 2 from rfl,
      hb]
  simp only [histGrid, show List.range 1 = [0] from rfl, List.map_cons, List.map_nil,
    histogram2d, List.filterMap_cons, List.filterMap_nil, hbo]
  rfl

/-- Success or failure of the contact-type panel loop does not depend on
which background images exist. -/
theorem contactPanelsAux_isOk_fs (fs fs2 : String → Bool) (rows : List Point) :
    ∀ (cats : List String) (idx : Nat),
      isOk (contactPanelsAux fs rows idx cats) = isOk (contactPanelsAux fs2 rows idx cats) := by
  intro cats
  induction cats with
  | nil => intro idx; rfl
  | cons c rest ih =>
    intro idx
    by_cases h2 : 2 ≤ idx
    · simp only [contactPanelsAux, if_pos h2]
    · simp only [contactPanelsAux, if_neg h2]
      cases hf : rows.filter (fun p => p.contactType == c) with
      | nil => rfl
      | cons p0 tl =>
        cases hr : contactPanelsAux fs rows (idx + 1) rest with
        | error e =>
          cases hr2 : contactPanelsAux fs2 rows (idx + 1) rest with
          | error e2 => simp [hr, hr2, isOk]
          | ok ps2 =>
            have hih := ih (idx + 1)
            rw [hr, hr2] at hih
            simp [isOk] at hih
        | ok ps =>
          cases hr2 : contactPanelsAux fs2 rows (idx + 1) rest with
          | error e2 =>
            have hih := ih (idx + 1)
            rw [hr, hr2] at hih
            simp [isOk] at hih
          | ok ps2 => simp [hr, hr2, isOk]

/-- Success or failure of the direction panel loop does not depend on
which background images exist. -/
theorem directionPanelsAux_isOk_fs (fs fs2 : String → Bool) (rows : List Point) :
    ∀ (cats : List String) (idx : Nat),
      isOk (directionPanelsAux fs rows idx cats) =
        isOk (directionPanelsAux fs2 rows idx cats) := by
  intro cats
  induction cats with
  | nil => intro idx; rfl
  | cons d rest ih =>
    intro idx
    by_cases h2 : 2 ≤ idx
    · simp only [directionPanelsAux, if_pos h2]
    · simp only [directionPanelsAux, if_neg h2]
      cases hf : rows.filter (fun p => p.direction == d) with
      | nil => rfl
      | cons p0 tl =>
        cases hl : directionLabels d with
        | none => rfl
        | some lbl =>
          cases hr : directionPanelsAux fs rows (idx + 1) rest with
          | error e =>
            cases hr2 : directionPanelsAux fs2 rows (idx + 1) rest with
            | error e2 => simp [hr, hr2, isOk]
            | ok ps2 =>
              have hih := ih (idx + 1)
              rw [hr, hr2] at hih
              simp [isOk] at hih
          | ok ps =>
            cases hr2 : directionPanelsAux fs2 rows (idx + 1) rest with
            | error e2 =>
              have hih := ih (idx + 1)
              rw [hr, hr2] at hih
              simp [isOk] at hih
            | ok ps2 => simp [hr, hr2, isOk]

/-- With no background images on disk every contact-type panel falls
back to the gray background. -/
theorem contactPanelsAux_gray (rows : List Point) :
    ∀ (cats : List String) (idx : Nat) (ps : List Panel),
      contactPanelsAux noImages rows idx cats = Except.ok ps →
      ∀ p ∈ ps, p.background = Background.gray := by
  intro cats
  induction cats with
  | nil =>
    intro idx ps h p hp
    simp only [contactPanelsAux] at h
    injection h with h1
    subst h1
    cases hp
  | cons c rest ih =>
    intro idx ps h p hp
    simp only [contactPanelsAux] at h
    split at h
    · cases h
    · cases hf : rows.filter (fun q => q.contactType == c) with
      | nil => rw [hf] at h; exact Except.noConfusion h
      | cons p0 tl =>
        simp only [hf] at h
        cases hr : contactPanelsAux noImages rows (idx + 1) rest with
        | error e => rw [hr] at h; exact Except.noConfusion h
        | ok ps2 =>
          simp only [hr] at h
          injection h with h1
          subst h1
          rcases List.mem_cons.mp hp with hp1 | hp1
          · subst hp1; simp [bgFor, noImages]
          · exact ih (idx + 1) ps2 hr p hp1

/-- With no background images on disk every direction panel falls back
to the gray background. -/
theorem directionPanelsAux_gray (rows : List Point) :
    ∀ (cats : List String) (idx : Nat) (ps : List Panel),
      directionPanelsAux noImages rows idx cats = Except.ok ps →
      ∀ p ∈ ps, p.background = Background.gray := by
  intro cats
  induction cats with
  | nil =>
    intro idx ps h p hp
    simp only [directionPanelsAux] at h
    injection h with h1
    subst h1
    cases hp
  | cons d rest ih =>
    intro idx ps h p hp
    simp only [directionPanelsAux] at h
    split at h
    · cases h
    · cases hf : rows.filter (fun q => q.direction == d) with
      | nil => rw [hf] at h; exact Except.noConfusion h
      | cons p0 tl =>
        simp only [hf] at h
        cases hl : directionLabels d with
        | none => rw [hl] at h; exact Except.noConfusion h
        | some lbl =>
          simp only [hl] at h
          cases hr : directionPanelsAux noImages rows (idx + 1) rest with
          | error e => rw [hr] at h; exact Except.noConfusion h
          | ok ps2 =>
            simp only [hr] at h
            injection h with h1
            subst h1
            rcases List.mem_cons.mp hp with hp1 | hp1
            · subst hp1; simp [bgFor, noImages]
            · exact ih (idx + 1) ps2 hr p hp1

/-- C7: absence of background image files never causes the Renderer to
fail: whether each breakdown succeeds is independent of which images
exist, and with no images every rendered panel of every breakdown uses
the flat gray fallback background. -/
theorem c7_missing_image_fallback :
    (∀ (fs : String → Bool) (rows : List Point),
      isOk (figureBreakdown fs rows) = isOk (figureBreakdown noImages rows) ∧
      isOk (contactBreakdown fs rows) = isOk (contactBreakdown noImages rows) ∧
      isOk (directionBreakdown fs rows) = isOk (directionBreakdown noImages rows)) ∧
    (∀ (rows : List Point) (ps : List Panel),
      (figureBreakdown noImages rows = Except.ok ps →
        ∀ p ∈ ps, p.background = Background.gray) ∧
      (contactBreakdown noImages rows = Except.ok ps →
        ∀ p ∈ ps, p.background = Background.gray) ∧
      (directionBreakdown noImages rows = Except.ok ps →
        ∀ p ∈ ps, p.background = Background.gray)) := by
  constructor
  · intro fs rows
    refine ⟨?_, ?_, ?_⟩
    · by_cases h : rows.isEmpty <;> simp [figureBreakdown, h, isOk]
    · by_cases h : rows.isEmpty
      · simp [contactBreakdown, h, isOk]
      · simp only [contactBreakdown, if_neg h]
        exact contactPanelsAux_isOk_fs fs noImages rows _ 0
    · by_cases h : rows.isEmpty
      · simp [directionBreakdown, h, isOk]
      · simp only [directionBreakdown, if_neg h]
        exact directionPanelsAux_isOk_fs fs noImages rows _ 0
  · intro rows ps
    refine ⟨?_, ?_, ?_⟩
    · intro h p hp
      rw [figureBreakdown] at h
      split at h
      · cases h
      · injection h with h1
        subst h1
        rcases List.mem_map.mp hp with ⟨g, _hg, hgp⟩
        rw [← hgp]
        simp [bgFor, noImages]
    · intro h p hp
      rw [contactBreakdown] at h
      split at h
      · cases h
      · exact contactPanelsAux_gray rows _ 0 ps h p hp
    · intro h p hp
      rw [directionBreakdown] at h
      split at h
      · cases h
      · exact directionPanelsAux_gray rows _ 0 ps h p hp

/-- Witness for C7: a concrete filesystem holding one image does not
change whether the breakdowns of a concrete table succeed, and with no
images the two rendered figure panels are gray. -/
theorem c7_missing_image_fallback_witness :
    (isOk (figureBreakdown (fun s => s == "arm.png") rowsTwo) =
        isOk (figureBreakdown noImages rowsTwo) ∧
      isOk (contactBreakdown (fun s => s == "arm.png") rowsTwo) =
        isOk (contactBreakdown noImages rowsTwo) ∧
      isOk (directionBreakdown (fun s => s == "arm.png") rowsTwo) =
        isOk (directionBreakdown noImages rowsTwo)) ∧
    (∀ p ∈ [{ category := "arm", count := 1, background := Background.gray },
            { category := "leg", count := 1, background := Background.gray }],
      Panel.background p = Background.gray) :=
  ⟨c7_missing_image_fallback.1 (fun s => s == "arm.png") rowsTwo,
   (c7_missing_image_fallback.2 rowsTwo
      [{ category := "arm", count := 1, background := Background.gray },
       { category := "leg", count := 1, background := Background.gray }]).1 (by rfl)⟩

/-- Every panel produced by the contact-type loop takes its background
from the figure field of the first row of its row subset. -/
theorem contactPanelsAux_background (fs : String → Bool) (rows : List Point) :
    ∀ (cats : List String) (idx : Nat) (ps : List Panel),
      contactPanelsAux fs rows idx cats = Except.ok ps →
      ∀ p ∈ ps,
        (rows.filter (fun r => r.contactType == p.category)).head?.map
          (fun q => bgFor fs q.figure) = some p.background := by
  intro cats
  induction cats with
  | nil =>
    intro idx ps h p hp
    simp only [contactPanelsAux] at h
    injection h with h1
    subst h1
    cases hp
  | cons c rest ih =>
    intro idx ps h p hp
    simp only [contactPanelsAux] at h
    split at h
    · exact Except.noConfusion h
    · cases hf : rows.filter (fun q => q.contactType == c) with
      | nil => rw [hf] at h; exact Except.noConfusion h
      | cons p0 tl =>
        simp only [hf] at h
        cases hr : contactPanelsAux fs rows (idx + 1) rest with
        | error e => rw [hr] at h; exact Except.noConfusion h
        | ok ps2 =>
          simp only [hr] at h
          injection h with h1
          subst h1
          rcases List.mem_cons.mp hp with hp1 | hp1
          · subst hp1
            simp only [hf, List.head?_cons]
            rfl
          · exact ih (idx + 1) ps2 hr p hp1

/-- Every panel produced by the direction loop takes its background from
the figure field of the first row of its row subset. -/
theorem directionPanelsAux_background (fs : String → Bool) (rows : List Point) :
    ∀ (cats : List String) (idx : Nat) (ps : List Panel),
      directionPanelsAux fs rows idx cats = Except.ok ps →
      ∀ p ∈ ps,
        (rows.filter (fun r => r.direction == p.category)).head?.map
          (fun q => bgFor fs q.figure) = some p.background := by
  intro cats
  induction cats with
  | nil =>
    intro idx ps h p hp
    simp only [directionPanelsAux] at h
    injection h with h1
    subst h1
    cases hp
  | cons d rest ih =>
    intro idx ps h p hp
    simp only [directionPanelsAux] at h
    split at h
    · exact Except.noConfusion h
    · cases hf : rows.filter (fun q => q.direction == d) with
      | nil => rw [hf] at h; exact Except.noConfusion h
      | cons p0 tl =>
        simp only [hf] at h
        cases hl : directionLabels d with
        | none => rw [hl] at h; exact Except.noConfusion h
        | some lbl =>
          simp only [hl] at h
          cases hr : directionPanelsAux fs rows (idx + 1) rest with
          | error e => rw [hr] at h; exact Except.noConfusion h
          | ok ps2 =>
            simp only [hr] at h
            injection h with h1
            subst h1
            rcases List.mem_cons.mp hp with hp1 | hp1
            · subst hp1
              simp only [hf, List.head?_cons]
              rfl
            · exact ih (idx + 1) ps2 hr p hp1

/-- C10: in the contact-type and direction breakdowns the background
image of each panel is probed for the figure value of the first row of
the row subset of the panel, in first-occurrence order, not for the
category value of the panel itself. -/
theorem c10_background_from_first_row :
    (∀ (fs : String → Bool) (rows : List Point) (ps : List Panel),
      contactBreakdown fs rows = Except.ok ps →
      ∀ p ∈ ps,
        (rows.filter (fun r => r.contactType == p.category)).head?.map
          (fun q => bgFor fs q.figure) = some p.background) ∧
    (∀ (fs : String → Bool) (rows : List Point) (ps : List Panel),
      directionBreakdown fs rows = Except.ok ps →
      ∀ p ∈ ps,
        (rows.filter (fun r => r.direction == p.category)).head?.map
          (fun q => bgFor fs q.figure) = some p.background) := by
  constructor
  · intro fs rows ps h
    rw [contactBreakdown] at h
    split at h
    · exact Except.noConfusion h
    · exact contactPanelsAux_background fs rows _ 0 ps h
  · intro fs rows ps h
    rw [directionBreakdown] at h
    split at h
    · exact Except.noConfusion h
    · exact directionPanelsAux_background fs rows _ 0 ps h

/-- Witness for C10: with only the arm image on disk, the pat panel of a
concrete table is rendered over the arm image (the figure of its first
row), not over a pat image, and the stroke panel falls back to gray. -/
theorem c10_background_from_first_row_witness :
    ∀ p ∈ [({ category := "pat", count := 1, background := Background.image "arm.png" } : Panel),
           ({ category := "stroke", count := 1, background := Background.gray } : Panel)],
      (rowsTwo.filter (fun r => r.contactType == p.category)).head?.map
        (fun q => bgFor (fun s => s == "arm.png") q.figure) = some p.background :=
  c10_background_from_first_row.1 (fun s => s == "arm.png") rowsTwo
    [{ category := "pat", count := 1, background := Background.image "arm.png" },
     { category := "stroke", count := 1, background := Background.gray }] (by rfl)

/-- Every value of the unique list of a mapped column has at least one
matching row. -/
theorem filter_mem_key (rows : List Point) (key : Point → String) (c : String)
    (h : c ∈ uniqueList (rows.map key)) :
    rows.filter (fun p => key p == c) ≠ [] := by
  have hmem := (mem_uniqueList _ _).mp h
  rcases List.mem_map.mp hmem with ⟨p, hp, hpc⟩
  intro hnil
  have hin : p ∈ rows.filter (fun q => key q == c) :=
    List.mem_filter.mpr ⟨hp, by simp [hpc]⟩
  rw [hnil] at hin
  cases hin

/-- The contact-type panel loop succeeds exactly when the remaining
categories fit in the remaining axes, and on success it renders one
panel per category, in order. -/
theorem contactPanelsAux_spec (fs : String → Bool) (rows : List Point) :
    ∀ (cats : List String) (idx : Nat), idx ≤ 2 →
      (∀ c ∈ cats, rows.filter (fun p => p.contactType == c) ≠ []) →
      (isOk (contactPanelsAux fs rows idx cats) = decide (cats.length + idx ≤ 2)) ∧
      (∀ ps, contactPanelsAux fs rows idx cats = Except.ok ps →
        ps.map (fun p => p.category) = cats) := by
  intro cats
  induction cats with
  | nil =>
    intro idx hidx _hne
    constructor
    · simp [contactPanelsAux, isOk, hidx]
    · intro ps h
      simp only [contactPanelsAux] at h
      injection h with h1
      subst h1
      rfl
  | cons c rest ih =>
    intro idx hidx hne
    by_cases h2 : 2 ≤ idx
    · have hbig : ¬((c :: rest).length + idx ≤ 2) := by
        simp only [List.length_cons]; omega
      constructor
      · simp only [contactPanelsAux, if_pos h2, isOk]
        symm
        rw [decide_eq_false_iff_not]
        exact hbig
      · intro ps h
        simp only [contactPanelsAux, if_pos h2] at h
        exact Except.noConfusion h
    · cases hf : rows.filter (fun p => p.contactType == c) with
      | nil => exact absurd hf (hne c (List.mem_cons_self _ _))
      | cons p0 tl =>
        obtain ⟨ihOk, ihMap⟩ :=
          ih (idx + 1) (by omega) (fun x hx => hne x (List.mem_cons_of_mem _ hx))
        constructor
        · cases hr : contactPanelsAux fs rows (idx + 1) rest with
          | error e =>
            rw [hr] at ihOk
            simp only [isOk] at ihOk
            have hgt : ¬(rest.length + (idx + 1) ≤ 2) := by
              intro hc
              rw [decide_eq_true hc] at ihOk
              cases ihOk
            have hgoal : ¬((c :: rest).length + idx ≤ 2) := by
              simp only [List.length_cons]; omega
            simp only [contactPanelsAux, if_neg h2, hf, hr, isOk]
            symm
            rw [decide_eq_false_iff_not]
            exact hgoal
          | ok ps2 =>
            rw [hr] at ihOk
            simp only [isOk] at ihOk
            have hle : rest.length + (idx + 1) ≤ 2 := by
              by_contra hc
              rw [decide_eq_false hc] at ihOk
              cases ihOk
            have hgoal : (c :: rest).length + idx ≤ 2 := by
              simp only [List.length_cons]; omega
            simp only [contactPanelsAux, if_neg h2, hf, hr, isOk]
            symm
            rw [decide_eq_true_eq]
            exact hgoal
        · intro ps h
          simp only [contactPanelsAux, if_neg h2, hf] at h
          cases hr : contactPanelsAux fs rows (idx + 1) rest with
          | error e => rw [hr] at h; exact Except.noConfusion h
          | ok ps2 =>
            rw [hr] at h
            injection h with h1
            subst h1
            simp [ihMap ps2 hr]

/-- The direction panel loop, when every remaining direction is labeled,
succeeds exactly when the remaining directions fit in the remaining
axes, and on success renders one panel per direction, in order. -/
theorem directionPanelsAux_spec (fs : String → Bool) (rows : List Point) :
    ∀ (cats : List String) (idx : Nat), idx ≤ 2 →
      (∀ d ∈ cats, rows.filter (fun p => p.direction == d) ≠ []) →
      (∀ d ∈ cats, (directionLabels d).isSome) →
      (isOk (directionPanelsAux fs rows idx cats) = decide (cats.length + idx ≤ 2)) ∧
      (∀ ps, directionPanelsAux fs rows idx cats = Except.ok ps →
        ps.map (fun p => p.category) = cats) := by
  intro cats
  induction cats with
  | nil =>
    intro idx hidx _hne _hlb
    constructor
    · simp [directionPanelsAux, isOk, hidx]
    · intro ps h
      simp only [directionPanelsAux] at h
      injection h with h1
      subst h1
      rfl
  | cons d rest ih =>
    intro idx hidx hne hlb
    by_cases h2 : 2 ≤ idx
    · have hbig : ¬((d :: rest).length + idx ≤ 2) := by
        simp only [List.length_cons]; omega
      constructor
      · simp only [directionPanelsAux, if_pos h2, isOk]
        symm
        rw [decide_eq_false_iff_not]
        exact hbig
      · intro ps h
        simp only [directionPanelsAux, if_pos h2] at h
        exact Except.noConfusion h
    · cases hf : rows.filter (fun p => p.direction == d) with
      | nil => exact absurd hf (hne d (List.mem_cons_self _ _))
      | cons p0 tl =>
        have hld := hlb d (List.mem_cons_self _ _)
        cases hl : directionLabels d with
        | none => rw [hl] at hld; cases hld
        | some lbl =>
          obtain ⟨ihOk, ihMap⟩ :=
            ih (idx + 1) (by omega) (fun x hx => hne x (List.mem_cons_of_mem _ hx))
              (fun x hx => hlb x (List.mem_cons_of_mem _ hx))
          constructor
          · cases hr : directionPanelsAux fs rows (idx + 1) rest with
            | error e =>
              rw [hr] at ihOk
              simp only [isOk] at ihOk
              have hgt : ¬(rest.length + (idx + 1) ≤ 2) := by
                intro hc
                rw [decide_eq_true hc] at ihOk
                cases ihOk
              have hgoal : ¬((d :: rest).length + idx ≤ 2) := by
                simp only [List.length_cons]; omega
              simp only [directionPanelsAux, if_neg h2, hf, hl, hr, isOk]
              symm
              rw [decide_eq_false_iff_not]
              exact hgoal
            | ok ps2 =>
              rw [hr] at ihOk
              simp only [isOk] at ihOk
              have hle : rest.length + (idx + 1) ≤ 2 := by
                by_contra hc
                rw [decide_eq_false hc] at ihOk
                cases ihOk
              have hgoal : (d :: rest).length + idx ≤ 2 := by
                simp only [List.length_cons]; omega
              simp only [directionPanelsAux, if_neg h2, hf, hl, hr, isOk]
              symm
              rw [decide_eq_true_eq]
              exact hgoal
          · intro ps h
            simp only [directionPanelsAux, if_neg h2, hf, hl] at h
            cases hr : directionPanelsAux fs rows (idx + 1) rest with
            | error e => rw [hr] at h; exact Except.noConfusion h
            | ok ps2 =>
              rw [hr] at h
              injection h with h1
              subst h1
              simp [ihMap ps2 hr]

/-- Counterexample to C3 as stated: a table with three distinct contact
types makes the contact-type breakdown raise an IndexError on the third
panel, because `plt.subplots(1, 2)` allocates only two axes; it does not
run without error for every number of distinct values. -/
theorem c3_counterexample_three_contact_types :
    isOk (contactBreakdown noImages rowsThreeCT) = false ∧
    contactBreakdown noImages rowsThreeCT =
      Except.error "IndexError: axes index out of bounds" := by
  constructor <;> rfl

/-- C3 (amended): on a nonempty table whose directions are all labeled,
the figure breakdown always succeeds with one panel per distinct figure
value in first-occurrence order; the contact-type and direction
breakdowns succeed exactly when there are at most two distinct values
(beyond that the two-axes layout raises an IndexError), and on success
render one panel per distinct value in first-occurrence order. -/
theorem c3_panels_per_category (fs : String → Bool) (rows : List Point)
    (hne : rows ≠ [])
    (hD : ∀ d ∈ uniqueList (rows.map (fun p => p.direction)), (directionLabels d).isSome) :
    (isOk (figureBreakdown fs rows) = true ∧
      ∀ ps, figureBreakdown fs rows = Except.ok ps →
        ps.map (fun p => p.category) = uniqueList (rows.map (fun p => p.figure))) ∧
    (isOk (contactBreakdown fs rows) =
        decide ((uniqueList (rows.map (fun p => p.contactType))).length ≤ 2) ∧
      ∀ ps, contactBreakdown fs rows = Except.ok ps →
        ps.map (fun p => p.category) = uniqueList (rows.map (fun p => p.contactType))) ∧
    (isOk (directionBreakdown fs rows) =
        decide ((uniqueList (rows.map (fun p => p.direction))).length ≤ 2) ∧
      ∀ ps, directionBreakdown fs rows = Except.ok ps →
        ps.map (fun p => p.category) = uniqueList (rows.map (fun p => p.direction))) := by
  have hE : rows.isEmpty = false := by
    cases rows with
    | nil => exact absurd rfl hne
    | cons a l => rfl
  refine ⟨⟨?_, ?_⟩, ⟨?_, ?_⟩, ⟨?_, ?_⟩⟩
  · simp [figureBreakdown, hE, isOk]
  · intro ps h
    simp only [figureBreakdown, hE, Bool.false_eq_true, if_false] at h
    injection h with h1
    subst h1
    simp [Function.comp_def]
  · obtain ⟨hOk, _⟩ := contactPanelsAux_spec fs rows
      (uniqueList (rows.map (fun p => p.contactType))) 0 (by omega)
      (fun c hc => filter_mem_key rows (fun p => p.contactType) c hc)
    simp only [contactBreakdown, hE, Bool.false_eq_true, if_false]
    simpa using hOk
  · intro ps h
    simp only [contactBreakdown, hE, Bool.false_eq_true, if_false] at h
    obtain ⟨_, hMap⟩ := contactPanelsAux_spec fs rows
      (uniqueList (rows.map (fun p => p.contactType))) 0 (by omega)
      (fun c hc => filter_mem_key rows (fun p => p.contactType) c hc)
    exact hMap ps h
  · obtain ⟨hOk, _⟩ := directionPanelsAux_spec fs rows
      (uniqueList (rows.map (fun p => p.direction))) 0 (by omega)
      (fun d hd => filter_mem_key rows (fun p => p.direction) d hd) hD
    simp only [directionBreakdown, hE, Bool.false_eq_true, if_false]
    simpa using hOk
  · intro ps h
    simp only [directionBreakdown, hE, Bool.false_eq_true, if_false] at h
    obtain ⟨_, hMap⟩ := directionPanelsAux_spec fs rows
      (uniqueList (rows.map (fun p => p.direction))) 0 (by omega)
      (fun d hd => filter_mem_key rows (fun p => p.direction) d hd) hD
    exact hMap ps h

/-- Witness for the amended C3: the three success conditions evaluated
on a concrete two-row table with two contact types and two labeled
directions. -/
theorem c3_panels_per_category_witness :
    isOk (figureBreakdown noImages rowsTwo) = true ∧
    isOk (contactBreakdown noImages rowsTwo) =
      decide ((uniqueList (rowsTwo.map (fun p => p.contactType))).length ≤ 2) ∧
    isOk (directionBreakdown noImages rowsTwo) =
      decide ((uniqueList (rowsTwo.map (fun p => p.direction))).length ≤ 2) :=
  ⟨(c3_panels_per_category noImages rowsTwo (by decide) (by decide)).1.1,
   (c3_panels_per_category noImages rowsTwo (by decide) (by decide)).2.1.1,
   (c3_panels_per_category noImages rowsTwo (by decide) (by decide)).2.2.1⟩

end BodyMap
